import Mathlib

/-!
Shallow embedding of the caption synchronization & rendering engine
(Remotion `CaptionScene` / `Word` components and the grouping resolver)
over exact rational arithmetic. Definitions are translated from the
TypeScript source; definitions whose doc comment starts with
`Modelled from the spec:` or with `Spec description:` follow the
natural-language specification instead and are compared against the
source-derived definitions in the theorems.
-/

namespace Captions

/-- A word with its speech timestamps in seconds
(`Word { word, start, end }` in `types.ts`; `end` is a Lean keyword,
so the field is called `endSec`). -/
structure Word where
  word : String
  start : ℚ
  endSec : ℚ
deriving DecidableEq, Inhabited

/-- `LIGHT_WIDTH = 0.7` from the `Word` component. -/
def LIGHT_WIDTH : ℚ := 7 / 10

/-- `UNREACHED_OPACITY = 0.35` from the `Word` component. -/
def UNREACHED_OPACITY : ℚ := 7 / 20

/-- `ACTIVE_OPACITY = 1.0` from the `Word` component. -/
def ACTIVE_OPACITY : ℚ := 1

/-- `REACHED_OPACITY = 1.0` from the `Word` component. -/
def REACHED_OPACITY : ℚ := 1

/-- `DROP_DISTANCE = 6` pixels from `CaptionScene`. -/
def DROP_DISTANCE : ℚ := 6

/-- `ANIMATION_DURATION_MS = 400` from `CaptionScene`. -/
def ANIMATION_DURATION_MS : ℚ := 400

/-- `MIN_WORD_DURATION_FOR_KARAOKE_MS = 500` from `CaptionScene`. -/
def MIN_WORD_DURATION_FOR_KARAOKE_MS : ℚ := 500

/-- Remotion `interpolate` restricted to a two-point input/output range,
with the `extrapolateLeft`/`extrapolateRight` clamp flags and an easing
function applied to the normalized progress (Remotion's default easing
is the identity). -/
def interp (clampLeft clampRight : Bool) (easing : ℚ → ℚ)
    (x a b ya yb : ℚ) : ℚ :=
  let xc := if clampLeft ∧ x < a then a else if clampRight ∧ b < x then b else x
  ya + easing ((xc - a) / (b - a)) * (yb - ya)

/-- `Easing.cubic`: `t ↦ t³`. -/
def cubic (t : ℚ) : ℚ := t ^ 3

/-- `Easing.out f`: `t ↦ 1 - f (1 - t)` (run the easing backwards). -/
def easeOut (f : ℚ → ℚ) (t : ℚ) : ℚ := 1 - f (1 - t)

/-- JavaScript regex `\w` character class: ASCII letters, digits, underscore. -/
def isWordCharJS (c : Char) : Bool := c.isAlpha || c.isDigit || c = '_'

/-- Whether the regex `[^\w\s]|_` matches (and thus removes) a character. -/
def regexMatchesRemoved (c : Char) : Bool :=
  (!(isWordCharJS c || c.isWhitespace)) || c = '_'

/-- `word.word.replace(/[^\w\s]|_/g, "").toLowerCase()` from the `Word`
component: strip the matched characters, then lowercase. -/
def displayText (s : String) : String :=
  String.mk ((s.data.filter (fun c => !regexMatchesRemoved c)).map Char.toLower)

/-- `lineStartTime = lineStartFrame / fps` from the `Word` component. -/
def lineStartTimeOf (fps : ℚ) (lineStartFrame : ℤ) : ℚ :=
  (lineStartFrame : ℚ) / fps

/-- `timeProgress = Math.max(0, Math.min(1, (currentTime - lineStartTime) /
lineDuration))` from the `Word` component, with `currentTime = frame / fps`
and `lineDuration = lineEndTime - lineStartTime`. -/
def timeProgressOf (fps : ℚ) (frame lineStartFrame : ℤ) (lineEndTime : ℚ) : ℚ :=
  max 0 (min 1 (((frame : ℚ) / fps - lineStartTimeOf fps lineStartFrame) /
    (lineEndTime - lineStartTimeOf fps lineStartFrame)))

/-- `lightPosition = interpolate(timeProgress, [0, 1],
[-LIGHT_WIDTH, 1 + LIGHT_WIDTH], { extrapolateRight: "clamp" })`
from the `Word` component. -/
def lightPositionOf (fps : ℚ) (frame lineStartFrame : ℤ) (lineEndTime : ℚ) : ℚ :=
  interp false true id (timeProgressOf fps frame lineStartFrame lineEndTime)
    0 1 (-LIGHT_WIDTH) (1 + LIGHT_WIDTH)

/-- The three-band opacity computation of the `Word` component for a
karaoke-enabled line: branch on `distanceFromLight = wordPositionRatio -
lightPosition` exactly as the source does. -/
def karaokeOpacity (fps : ℚ) (frame lineStartFrame : ℤ)
    (lineEndTime wordPositionRatio : ℚ) : ℚ :=
  let distanceFromLight :=
    wordPositionRatio - lightPositionOf fps frame lineStartFrame lineEndTime
  if distanceFromLight < -LIGHT_WIDTH then
    REACHED_OPACITY
  else if |distanceFromLight| ≤ LIGHT_WIDTH then
    if distanceFromLight < 0 then
      interp false true id distanceFromLight (-LIGHT_WIDTH) 0
        REACHED_OPACITY ACTIVE_OPACITY
    else
      interp true false id distanceFromLight 0 LIGHT_WIDTH
        ACTIVE_OPACITY UNREACHED_OPACITY
  else
    UNREACHED_OPACITY

/-- Per-word opacity of the `Word` component: constant `1` when karaoke is
disabled (the span carries no `opacity` style, i.e. full opacity), the
three-band sweep otherwise. -/
def wordOpacity (fps : ℚ) (frame lineStartFrame : ℤ) (lineEndTime : ℚ)
    (isKaraokeEnabled : Bool) (wordPositionRatio : ℚ) : ℚ :=
  if isKaraokeEnabled then
    karaokeOpacity fps frame lineStartFrame lineEndTime wordPositionRatio
  else 1

/-- The visual state of one rendered word: displayed text and opacity. -/
structure RenderedWord where
  text : String
  opacity : ℚ
deriving DecidableEq

/-- Rendering one `Word` component instance. -/
def renderWord (fps : ℚ) (frame lineStartFrame : ℤ) (lineEndTime : ℚ)
    (isKaraokeEnabled : Bool) (wordPositionRatio : ℚ) (w : Word) : RenderedWord :=
  { text := displayText w.word
    opacity := wordOpacity fps frame lineStartFrame lineEndTime
      isKaraokeEnabled wordPositionRatio }

/-- One entry of `processedGroups` in `CaptionScene`. -/
structure ProcessedGroup where
  words : List Word
  lineStart : ℚ
  lineEnd : ℚ
  enableEffects : Bool
  startFrame : ℤ
  endFrame : ℤ
deriving DecidableEq

/-- The `groups.map(...)` body of `CaptionScene`: line timing, the
effect-eligibility flag `(lineEnd - lineStart) * 1000 >= 500`, and the
frame window `[floor(lineStart * fps), floor(lineEnd * fps))`. -/
def processGroup (fps : ℚ) (wordGroup : List Word) : ProcessedGroup :=
  let lineStart := wordGroup.headI.start
  let lineEnd := wordGroup.getLastI.endSec
  let lineDurationMs := (lineEnd - lineStart) * 1000
  { words := wordGroup
    lineStart := lineStart
    lineEnd := lineEnd
    enableEffects := decide (lineDurationMs ≥ MIN_WORD_DURATION_FOR_KARAOKE_MS)
    startFrame := ⌊lineStart * fps⌋
    endFrame := ⌊lineEnd * fps⌋ }

/-- `baselineY = videoHeight - Math.floor(videoHeight * 0.27)` from
`CaptionScene`. -/
def baselineY (videoHeight : ℚ) : ℚ :=
  videoHeight - (⌊videoHeight * (27 / 100 : ℚ)⌋ : ℤ)

/-- `animationDurationFrames = Math.floor((ANIMATION_DURATION_MS / 1000) *
fps)` from `CaptionScene`. -/
def animationDurationFrames (fps : ℚ) : ℤ :=
  ⌊(ANIMATION_DURATION_MS / 1000) * fps⌋

/-- `currentY` of `CaptionScene`: the drop-in animation when effects are
enabled (`interpolate` with cubic ease-out, clamped on the right), the
baseline otherwise. -/
def currentYOf (fps : ℚ) (frame : ℤ) (base : ℚ) (g : ProcessedGroup) : ℚ :=
  if g.enableEffects then
    let animationProgress :=
      min 1 (((frame - g.startFrame : ℤ) : ℚ) / ((animationDurationFrames fps : ℤ) : ℚ))
    interp false true (easeOut cubic) animationProgress 0 1
      (base - DROP_DISTANCE) base
  else base

/-- `wordPositionRatio = wordCount > 1 ? (wordIndex + 0.5) / wordCount : 0.5`
from `CaptionScene`. -/
def wordPositionRatioOf (wordCount wordIndex : ℕ) : ℚ :=
  if 1 < wordCount then ((wordIndex : ℚ) + 1 / 2) / (wordCount : ℚ) else 1 / 2

/-- One rendered caption line: its `top` position and its rendered words. -/
structure RenderedLine where
  top : ℚ
  words : List RenderedWord
deriving DecidableEq

/-- Rendering the active line div of `CaptionScene`: the drop-animated
`top` plus one `Word` component per word. -/
def renderLine (fps : ℚ) (frame : ℤ) (base : ℚ) (g : ProcessedGroup) : RenderedLine :=
  { top := currentYOf fps frame base g
    words := g.words.mapIdx (fun wordIndex w =>
      renderWord fps frame g.startFrame g.lineEnd g.enableEffects
        (wordPositionRatioOf g.words.length wordIndex) w) }

/-- The per-group body of the render loop of `CaptionScene`:
`if (frame < startFrame || frame >= endFrame) return null` else render. -/
def renderGroup (fps : ℚ) (frame : ℤ) (base : ℚ) (g : ProcessedGroup) :
    Option RenderedLine :=
  if frame < g.startFrame ∨ frame ≥ g.endFrame then none
  else some (renderLine fps frame base g)

/-- The whole `CaptionScene` output for one frame: every group is
processed and each active group contributes a rendered line, in
declaration order (React drops the `null` entries). -/
def renderFrame (fps videoHeight : ℚ) (groups : List (List Word)) (frame : ℤ) :
    List RenderedLine :=
  (groups.map (processGroup fps)).filterMap
    (renderGroup fps frame (baselineY videoHeight))

/-- Spec description: the three opacity bands of §4.3, written from the
specification text as explicit linear interpolations in `distance`
(evaluated in order). Used to compare the source's `Word` component
against the spec. -/
def specBandOpacity (distance : ℚ) : ℚ :=
  if distance < -LIGHT_WIDTH then
    REACHED_OPACITY
  else if |distance| ≤ LIGHT_WIDTH ∧ distance < 0 then
    REACHED_OPACITY +
      ((distance + LIGHT_WIDTH) / LIGHT_WIDTH) * (ACTIVE_OPACITY - REACHED_OPACITY)
  else if |distance| ≤ LIGHT_WIDTH ∧ 0 ≤ distance then
    ACTIVE_OPACITY + (distance / LIGHT_WIDTH) * (UNREACHED_OPACITY - ACTIVE_OPACITY)
  else
    UNREACHED_OPACITY

/-- `clamp(x, 0, 1)` as used by the specification's formulas. -/
def clamp01 (x : ℚ) : ℚ := max 0 (min 1 x)

/-- `lerp(a, b, t) = a + t * (b - a)` as used by the specification. -/
def lerpQ (a b t : ℚ) : ℚ := a + t * (b - a)

/-- Spec description: the displayed text per the claim — characters that
are neither ASCII word characters nor whitespace are removed, underscores
are removed, and the rest is lowercased. -/
def specDisplayText (s : String) : String :=
  String.mk ((s.data.filter (fun c => c.isAlpha || c.isDigit || c.isWhitespace)).map
    Char.toLower)

/-- One entry of the grouping file: indices into the word list plus an
advisory text preview (`types.ts`). -/
structure Grouping where
  indices : List ℕ
  text : String
deriving DecidableEq

/-- The grouping file: an ordered list of groups (`types.ts`). -/
structure GroupingFile where
  groups : List Grouping
deriving DecidableEq

/-- Validation failure taxonomy of §7 that the resolver can report. -/
inductive CaptionError where
  | InvalidGrouping
deriving DecidableEq

/-- Strictly increasing index list, checked pairwise. -/
def strictlyIncreasing : List ℕ → Bool
  | [] => true
  | [_] => true
  | a :: b :: rest => decide (a < b) && strictlyIncreasing (b :: rest)

/-- Modelled from the spec: the Grouping Resolver's per-group validation
(§4.1). The resolver itself lives in `modules/captions.py`, which is not
under `src/` (only the documentation snippet in `CAPTIONS.md` is); per
the spec a group is valid when it is non-empty, its indices are strictly
increasing, and every index is in `[0, words.length)`. -/
def validGroupEntry (wordCount : ℕ) (g : Grouping) : Bool :=
  (!g.indices.isEmpty) && strictlyIncreasing g.indices &&
    g.indices.all (fun i => decide (i < wordCount))

/-- Modelled from the spec: `resolve(words, grouping)` (§4.1). Fails with
`InvalidGrouping` when any group is invalid — returning `Except.error`,
so no partial track is ever constructed — and otherwise dereferences
every group's indices into words in order. -/
def resolve (words : List Word) (grouping : GroupingFile) :
    Except CaptionError (List (List Word)) :=
  if grouping.groups.all (validGroupEntry words.length) then
    Except.ok (grouping.groups.map (fun g =>
      g.indices.map (fun i => words.getD i default)))
  else
    Except.error CaptionError.InvalidGrouping

/-- Full opacity of a karaoke-enabled word at a given (natural) frame. -/
def fullOpacityAt (fps : ℚ) (lineStartFrame : ℤ)
    (lineEndTime wordPositionRatio : ℚ) (n : ℕ) : Prop :=
  wordOpacity fps (n : ℤ) lineStartFrame lineEndTime true wordPositionRatio = 1

instance (fps : ℚ) (sf : ℤ) (le r : ℚ) : DecidablePred (fullOpacityAt fps sf le r) :=
  fun n => inferInstanceAs
    (Decidable (wordOpacity fps (n : ℤ) sf le true r = 1))

/-- The first frame at which a karaoke-enabled word's opacity reaches 1. -/
def firstFullFrame (fps : ℚ) (lineStartFrame : ℤ)
    (lineEndTime wordPositionRatio : ℚ)
    (h : ∃ n, fullOpacityAt fps lineStartFrame lineEndTime wordPositionRatio n) : ℕ :=
  Nat.find h

/-- The "Great ideas change" line of the preview data / §8 concrete
scenario: words at 0.14–0.32, 0.32–0.62, 0.62–1.06 seconds. -/
def greatIdeasChange : List Word :=
  [⟨"Great", 7 / 50, 8 / 25⟩, ⟨"ideas", 8 / 25, 31 / 50⟩,
    ⟨"change", 31 / 50, 53 / 50⟩]

/-- Two one-word lines whose windows overlap at 10 fps: `[0, 10)` and
`[5, 15)`. Both are 1 s long, so both are effect-eligible. -/
def overlapGroups : List (List Word) :=
  [[⟨"alpha", 0, 1⟩], [⟨"beta", 1 / 2, 3 / 2⟩]]

/-- An effect-eligible three-word line from 0 s to 0.5 s (duration exactly
500 ms, so effects are enabled). -/
def shortLine : List Word :=
  [⟨"one", 0, 1 / 10⟩, ⟨"two", 1 / 10, 3 / 10⟩, ⟨"three", 3 / 10, 1 / 2⟩]

/-- C1. For a karaoke-enabled (effect-eligible) line, every frame and every
word position ratio in `[0, 1]`, the word's opacity is exactly the
specification's three-band rule evaluated in order on
`distance = wordPositionRatio - lightPosition`. -/
theorem wordOpacity_matches_three_band_rule (fps lineEndTime r : ℚ)
    (frame lineStartFrame : ℤ) (hr0 : 0 ≤ r) (hr1 : r ≤ 1) :
    wordOpacity fps frame lineStartFrame lineEndTime true r =
      specBandOpacity (r - lightPositionOf fps frame lineStartFrame lineEndTime) := by
  show karaokeOpacity fps frame lineStartFrame lineEndTime r = _
  unfold karaokeOpacity specBandOpacity
  set d := r - lightPositionOf fps frame lineStartFrame lineEndTime with hd
  by_cases h1 : d < -LIGHT_WIDTH
  · rw [if_pos h1, if_pos h1]
  · rw [if_neg h1, if_neg h1]
    by_cases h2 : |d| ≤ LIGHT_WIDTH
    · rw [if_pos h2]
      by_cases h3 : d < 0
      · rw [if_pos h3, if_pos ⟨h2, h3⟩]
        simp only [interp, Bool.false_eq_true, false_and, if_false]
        rw [if_neg (by simp [h3.not_lt])]
        simp only [id_eq]
        ring
      · push_neg at h3
        rw [if_neg (not_lt.mpr h3),
          if_neg (fun hc => absurd hc.2 h3.not_lt), if_pos ⟨h2, h3⟩]
        simp only [interp, Bool.false_eq_true, false_and, if_false]
        rw [if_neg (by simp [h3.not_lt])]
        simp only [id_eq]
        ring
    · rw [if_neg h2, if_neg (fun hc => h2 hc.1), if_neg (fun hc => h2 hc.1)]

/-- Witness for C1 at a concrete input. -/
theorem wordOpacity_matches_three_band_rule_witness :
    wordOpacity 30 10 4 (53 / 50) true (1 / 2) =
      specBandOpacity ((1 : ℚ) / 2 - lightPositionOf 30 10 4 (53 / 50)) :=
  wordOpacity_matches_three_band_rule 30 (53 / 50) (1 / 2) 10 4
    (by norm_num) (by norm_num)

/-- C2. The compositor renders a line exactly for the frames of its window
`[startFrame, endFrame)`: the per-group render of `CaptionScene` produces a
line iff `startFrame <= frame < endFrame` (in particular it renders at
`startFrame` and `endFrame - 1` of a non-empty window and not at
`endFrame`). -/
theorem renderGroup_some_iff_frame_in_window (fps base : ℚ)
    (g : ProcessedGroup) (frame : ℤ) :
    (renderGroup fps frame base g).isSome = true ↔
      g.startFrame ≤ frame ∧ frame < g.endFrame := by
  unfold renderGroup
  split_ifs with h
  · simp only [Option.isSome_none, Bool.false_eq_true, false_iff]
    omega
  · simp only [Option.isSome_some, true_iff]
    omega

/-- C5 counterexample. For the "Great ideas change" line at 30 fps and
frame 30, the sweep's time progress computed by the code (from the
frame-quantized start `startFrame / fps = 4/30`) differs from the
specification's formula measured from the exact `startSec = 0.14`:
the code yields `130/139`, the spec formula `43/46`. -/
theorem timeProgress_ne_spec_exact_start :
    timeProgressOf 30 30 (processGroup 30 greatIdeasChange).startFrame
        (processGroup 30 greatIdeasChange).lineEnd ≠
      clamp01 (((30 : ℚ) / 30 - 7 / 50) / (53 / 50 - 7 / 50)) := by
  norm_num [timeProgressOf, lineStartTimeOf, processGroup, greatIdeasChange,
    clamp01, List.headI, List.getLastI, min_def, max_def]

/-- C5 amended. The sweep's time progress equals
`clamp((frame/fps - startFrame/fps) / (lineEndTime - startFrame/fps), 0, 1)`:
it is measured from the frame-quantized start `startFrame / fps`, not from
the line's exact `startSec` (the end side does use the exact `endSec`). -/
theorem timeProgress_uses_quantized_start (fps lineEndTime : ℚ)
    (frame lineStartFrame : ℤ) :
    timeProgressOf fps frame lineStartFrame lineEndTime =
      clamp01 (((frame : ℚ) / fps - (lineStartFrame : ℚ) / fps) /
        (lineEndTime - (lineStartFrame : ℚ) / fps)) := rfl

/-- C10. Every rendered word, karaoke-enabled or not, displays the cleaned
text: characters that are neither ASCII word characters nor whitespace are
removed, underscores are removed, and the rest is lowercased — not the
word's text verbatim. -/
theorem rendered_text_is_cleaned_lowercase (fps lineEndTime r : ℚ)
    (frame lineStartFrame : ℤ) (isKaraokeEnabled : Bool) (w : Word) :
    (renderWord fps frame lineStartFrame lineEndTime isKaraokeEnabled r w).text =
      specDisplayText w.word := by
  show displayText w.word = specDisplayText w.word
  unfold displayText specDisplayText
  congr 1
  refine congrArg (List.map Char.toLower) ?_
  refine List.filter_congr ?_
  intro c _
  by_cases hc : c = '_'
  · subst hc
    decide
  · simp [regexMatchesRemoved, isWordCharJS, hc]

/-- C3. A line below the 500 ms effect threshold renders statically: its
`top` is exactly the baseline (vertical offset 0) and every rendered word
has opacity exactly 1, at every frame. -/
theorem static_line_full_opacity_baseline (fps vh : ℚ) (ws : List Word)
    (frame : ℤ)
    (hdur : (ws.getLastI.endSec - ws.headI.start) * 1000 <
      MIN_WORD_DURATION_FOR_KARAOKE_MS) :
    (renderLine fps frame (baselineY vh) (processGroup fps ws)).top = baselineY vh ∧
      ((renderLine fps frame (baselineY vh) (processGroup fps ws)).words.all
        (fun rw => decide (rw.opacity = 1))) = true := by
  have heff : (processGroup fps ws).enableEffects = false := by
    simp only [processGroup, decide_eq_false_iff_not, not_le]
    exact hdur
  constructor
  · simp [renderLine, currentYOf, heff]
  · rw [List.all_eq_true]
    intro rw hrw
    simp only [renderLine, List.mapIdx_eq_enum_map, List.mem_map] at hrw
    obtain ⟨⟨i, w⟩, _, hrfl⟩ := hrw
    rw [decide_eq_true_eq, ← hrfl]
    simp [Function.uncurry, renderWord, wordOpacity, heff]

/-- Witness for C3: a 100 ms one-word line at 30 fps. -/
theorem static_line_full_opacity_baseline_witness :
    (renderLine 30 1 (baselineY 100)
        (processGroup 30 [⟨"hi", 0, 1 / 10⟩])).top = baselineY 100 ∧
      ((renderLine 30 1 (baselineY 100)
        (processGroup 30 [⟨"hi", 0, 1 / 10⟩])).words.all
          (fun rw => decide (rw.opacity = 1))) = true :=
  static_line_full_opacity_baseline 30 100 [⟨"hi", 0, 1 / 10⟩] 1
    (by norm_num [List.getLastI, List.headI, MIN_WORD_DURATION_FOR_KARAOKE_MS])

/-- C4. For an effect-eligible line and a frame at or after its
`startFrame`, the line's vertical offset from the baseline equals
`lerp(-DROP_DISTANCE, 0, easedCubicOut(clamp((frame - startFrame) /
floor(animationDurationMs/1000 * fps), 0, 1)))`; the progress is anchored
to `startFrame` only, so the animation never re-triggers. -/
theorem drop_offset_eq_eased_lerp (fps vh : ℚ) (ws : List Word) (frame : ℤ)
    (hfps : 0 < fps)
    (heff : (processGroup fps ws).enableEffects = true)
    (hframe : (processGroup fps ws).startFrame ≤ frame) :
    (renderLine fps frame (baselineY vh) (processGroup fps ws)).top - baselineY vh =
      lerpQ (-DROP_DISTANCE) 0 (easeOut cubic (clamp01
        (((frame : ℚ) - ((processGroup fps ws).startFrame : ℚ)) /
          ((animationDurationFrames fps : ℤ) : ℚ)))) := by
  set g := processGroup fps ws with hg
  have hnum : (0 : ℚ) ≤ (frame : ℚ) - (g.startFrame : ℚ) := by
    rw [sub_nonneg]
    exact_mod_cast hframe
  have hden : (0 : ℚ) ≤ ((animationDurationFrames fps : ℤ) : ℚ) := by
    have : (0 : ℤ) ≤ animationDurationFrames fps := by
      apply Int.floor_nonneg.mpr
      exact mul_nonneg (by norm_num [ANIMATION_DURATION_MS]) hfps.le
    exact_mod_cast this
  have hraw : (0 : ℚ) ≤ ((frame : ℚ) - (g.startFrame : ℚ)) /
      ((animationDurationFrames fps : ℤ) : ℚ) := div_nonneg hnum hden
  have hclamp : clamp01 (((frame : ℚ) - (g.startFrame : ℚ)) /
        ((animationDurationFrames fps : ℤ) : ℚ)) =
      min 1 (((frame : ℚ) - (g.startFrame : ℚ)) /
        ((animationDurationFrames fps : ℤ) : ℚ)) := by
    unfold clamp01
    exact max_eq_right (le_min zero_le_one hraw)
  rw [hclamp]
  simp only [renderLine, currentYOf, heff, if_true]
  set p := min 1 (((frame - g.startFrame : ℤ) : ℚ) /
    ((animationDurationFrames fps : ℤ) : ℚ)) with hp
  have hcast : ((frame - g.startFrame : ℤ) : ℚ) =
      (frame : ℚ) - (g.startFrame : ℚ) := by push_cast; ring
  have hple : ¬ ((1 : ℚ) < p) := not_lt.mpr (min_le_left _ _)
  simp only [interp, Bool.false_eq_true, false_and, if_false]
  rw [if_neg (by simp [hple])]
  rw [hp, hcast]
  unfold lerpQ
  ring

/-- Witness for C4: the "Great ideas change" line at 30 fps, frame 10. -/
theorem drop_offset_eq_eased_lerp_witness :
    (renderLine 30 10 (baselineY 2160)
        (processGroup 30 greatIdeasChange)).top - baselineY 2160 =
      lerpQ (-DROP_DISTANCE) 0 (easeOut cubic (clamp01
        (((10 : ℤ) - ((processGroup 30 greatIdeasChange).startFrame : ℚ)) /
          ((animationDurationFrames 30 : ℤ) : ℚ)))) :=
  drop_offset_eq_eased_lerp 30 2160 greatIdeasChange 10 (by norm_num)
    (by norm_num [processGroup, greatIdeasChange, List.headI, List.getLastI,
      MIN_WORD_DURATION_FOR_KARAOKE_MS])
    (by norm_num [processGroup, greatIdeasChange, List.headI, List.getLastI])

/-- C6 counterexample. Two lines with overlapping windows (`[0, 10)` and
`[5, 15)` at 10 fps) are BOTH rendered at frame 6: the compositor returns
two lines, not exactly one, and surfaces no warning. -/
theorem renderFrame_overlap_renders_two :
    (processGroup 10 [⟨"alpha", (0 : ℚ), 1⟩]).startFrame = 0 ∧
      (processGroup 10 [⟨"alpha", (0 : ℚ), 1⟩]).endFrame = 10 ∧
      (processGroup 10 [⟨"beta", (1 : ℚ) / 2, 3 / 2⟩]).startFrame = 5 ∧
      (processGroup 10 [⟨"beta", (1 : ℚ) / 2, 3 / 2⟩]).endFrame = 15 ∧
      (renderFrame 10 100 overlapGroups 6).length = 2 := by
  refine ⟨?_, ?_, ?_, ?_, ?_⟩ <;>
    norm_num [renderFrame, overlapGroups, processGroup, renderGroup,
      MIN_WORD_DURATION_FOR_KARAOKE_MS, List.filterMap, List.getLastI,
      List.headI]

/-- C6 amended. The compositor renders every line whose window contains the
frame, in declaration order (an overlap yields several stacked lines, the
later-declared one drawn last); it is a total function, so it never
crashes, and no warning is surfaced anywhere. -/
theorem renderFrame_renders_all_active (fps vh : ℚ)
    (groups : List (List Word)) (frame : ℤ) :
    renderFrame fps vh groups frame =
      ((groups.map (processGroup fps)).filter
        (fun g => decide (g.startFrame ≤ frame ∧ frame < g.endFrame))).map
        (renderLine fps frame (baselineY vh)) := by
  unfold renderFrame
  generalize groups.map (processGroup fps) = l
  induction l with
  | nil => simp
  | cons g t ih =>
    simp only [List.filterMap_cons, List.filter_cons]
    by_cases h : frame < g.startFrame ∨ frame ≥ g.endFrame
    · have hdec : decide (g.startFrame ≤ frame ∧ frame < g.endFrame) = false := by
        rw [decide_eq_false_iff_not]
        omega
      simp only [renderGroup, if_pos h, hdec, if_false, ih, Bool.false_eq_true]
    · have hdec : decide (g.startFrame ≤ frame ∧ frame < g.endFrame) = true := by
        rw [decide_eq_true_eq]
        omega
      simp only [renderGroup, if_neg h, hdec, if_true, ih, List.map_cons]

/-- A karaoke word is at full opacity exactly when the light has reached or
passed it: `wordPositionRatio ≤ lightPosition`. -/
theorem fullOpacityAt_iff (fps lineEndTime r : ℚ) (sf : ℤ) (n : ℕ) :
    fullOpacityAt fps sf lineEndTime r n ↔
      r ≤ lightPositionOf fps (n : ℤ) sf lineEndTime := by
  unfold fullOpacityAt
  show karaokeOpacity fps (n : ℤ) sf lineEndTime r = 1 ↔ _
  unfold karaokeOpacity
  set light := lightPositionOf fps (n : ℤ) sf lineEndTime with hl
  set d := r - light with hd
  have hLW : (0 : ℚ) < LIGHT_WIDTH := by norm_num [LIGHT_WIDTH]
  have hrle : r ≤ light ↔ d ≤ 0 := by
    rw [hd]
    constructor <;> intro h <;> linarith
  rw [hrle]
  by_cases h1 : d < -LIGHT_WIDTH
  · rw [if_pos h1]
    simp only [REACHED_OPACITY, true_iff]
    linarith
  · rw [if_neg h1]
    by_cases h2 : |d| ≤ LIGHT_WIDTH
    · rw [if_pos h2]
      by_cases h3 : d < 0
      · rw [if_pos h3]
        simp only [interp, Bool.false_eq_true, false_and, if_false, id_eq]
        rw [if_neg (by simp [h3.not_lt])]
        constructor
        · intro _
          exact h3.le
        · intro _
          norm_num [REACHED_OPACITY, ACTIVE_OPACITY]
      · push_neg at h3
        rw [if_neg (not_lt.mpr h3)]
        simp only [interp, Bool.false_eq_true, false_and, if_false, id_eq]
        rw [if_neg (by simp [h3.not_lt])]
        have harith : ACTIVE_OPACITY + (d - 0) / (LIGHT_WIDTH - 0) *
            (UNREACHED_OPACITY - ACTIVE_OPACITY) = 1 - (13 / 14) * d := by
          norm_num [ACTIVE_OPACITY, UNREACHED_OPACITY, LIGHT_WIDTH]
          ring
        rw [harith]
        constructor
        · intro h
          have hzero : (13 / 14 : ℚ) * d = 0 := by linarith
          rcases mul_eq_zero.mp hzero with hc | hc
          · norm_num at hc
          · rw [hc]
        · intro h
          have hzero : d = 0 := le_antisymm h h3
          rw [hzero]
          ring
    · rw [if_neg h2]
      push_neg at h1 h2
      have hdpos : LIGHT_WIDTH < d := by
        rcases abs_cases d with ⟨he, _⟩ | ⟨he, _⟩
        · linarith
        · linarith
      constructor
      · intro h
        exfalso
        norm_num [UNREACHED_OPACITY] at h
      · intro h
        exfalso
        linarith

/-- The leftmost word of `shortLine` (ratio 1/6) does reach full opacity. -/
theorem reachesOne_left :
    ∃ n, fullOpacityAt 8 0 (1 / 2) (wordPositionRatioOf 3 0) n :=
  ⟨2, by norm_num [fullOpacityAt, wordPositionRatioOf, wordOpacity,
    karaokeOpacity, lightPositionOf, timeProgressOf, lineStartTimeOf, interp,
    LIGHT_WIDTH, REACHED_OPACITY, ACTIVE_OPACITY, UNREACHED_OPACITY, abs_le,
    min_def, max_def]⟩

/-- The middle word of `shortLine` (ratio 1/2) does reach full opacity. -/
theorem reachesOne_mid :
    ∃ n, fullOpacityAt 8 0 (1 / 2) (wordPositionRatioOf 3 1) n :=
  ⟨2, by norm_num [fullOpacityAt, wordPositionRatioOf, wordOpacity,
    karaokeOpacity, lightPositionOf, timeProgressOf, lineStartTimeOf, interp,
    LIGHT_WIDTH, REACHED_OPACITY, ACTIVE_OPACITY, UNREACHED_OPACITY, abs_le,
    min_def, max_def]⟩

/-- C7 counterexample. For the effect-eligible line `shortLine` at 8 fps
(window start frame 0, line end 0.5 s), the words with ratios 1/6 and 1/2
BOTH first reach opacity 1.0 at frame 2: the first-full-opacity frame is
not strictly increasing in the position ratio. -/
theorem sweep_first_frames_can_coincide :
    (processGroup 8 shortLine).startFrame = 0 ∧
      (processGroup 8 shortLine).lineEnd = 1 / 2 ∧
      (processGroup 8 shortLine).enableEffects = true ∧
      wordPositionRatioOf 3 0 < wordPositionRatioOf 3 1 ∧
      firstFullFrame 8 0 (1 / 2) (wordPositionRatioOf 3 0) reachesOne_left = 2 ∧
      firstFullFrame 8 0 (1 / 2) (wordPositionRatioOf 3 1) reachesOne_mid = 2 := by
  refine ⟨?_, ?_, ?_, ?_, ?_, ?_⟩
  · norm_num [processGroup, shortLine, List.headI]
  · norm_num [processGroup, shortLine, List.getLastI]
  · norm_num [processGroup, shortLine, List.headI, List.getLastI,
      MIN_WORD_DURATION_FOR_KARAOKE_MS]
  · norm_num [wordPositionRatioOf]
  · unfold firstFullFrame
    rw [Nat.find_eq_iff]
    constructor
    · norm_num [fullOpacityAt, wordPositionRatioOf, wordOpacity,
        karaokeOpacity, lightPositionOf, timeProgressOf, lineStartTimeOf,
        interp, LIGHT_WIDTH, REACHED_OPACITY, ACTIVE_OPACITY,
        UNREACHED_OPACITY, abs_le, min_def, max_def]
    · intro m hm
      interval_cases m <;>
        norm_num [fullOpacityAt, wordPositionRatioOf, wordOpacity,
          karaokeOpacity, lightPositionOf, timeProgressOf, lineStartTimeOf,
          interp, LIGHT_WIDTH, REACHED_OPACITY, ACTIVE_OPACITY,
          UNREACHED_OPACITY, abs_le, min_def, max_def]
  · unfold firstFullFrame
    rw [Nat.find_eq_iff]
    constructor
    · norm_num [fullOpacityAt, wordPositionRatioOf, wordOpacity,
        karaokeOpacity, lightPositionOf, timeProgressOf, lineStartTimeOf,
        interp, LIGHT_WIDTH, REACHED_OPACITY, ACTIVE_OPACITY,
        UNREACHED_OPACITY, abs_le, min_def, max_def]
    · intro m hm
      interval_cases m <;>
        norm_num [fullOpacityAt, wordPositionRatioOf, wordOpacity,
          karaokeOpacity, lightPositionOf, timeProgressOf, lineStartTimeOf,
          interp, LIGHT_WIDTH, REACHED_OPACITY, ACTIVE_OPACITY,
          UNREACHED_OPACITY, abs_le, min_def, max_def]

/-- C7 amended. For a karaoke-enabled line, the first frame at which a
word's opacity reaches 1.0 is monotonically non-decreasing (not strictly
increasing) in the word's position ratio. -/
theorem firstFullFrame_monotone (fps lineEndTime rA rB : ℚ) (sf : ℤ)
    (hAB : rA < rB)
    (hA : ∃ n, fullOpacityAt fps sf lineEndTime rA n)
    (hB : ∃ n, fullOpacityAt fps sf lineEndTime rB n) :
    firstFullFrame fps sf lineEndTime rA hA ≤
      firstFullFrame fps sf lineEndTime rB hB := by
  unfold firstFullFrame
  apply Nat.find_mono
  intro n hn
  rw [fullOpacityAt_iff] at hn ⊢
  exact le_trans hAB.le hn

/-- Witness for C7 amended at the `shortLine` words. -/
theorem firstFullFrame_monotone_witness :
    firstFullFrame 8 0 (1 / 2) (wordPositionRatioOf 3 0) reachesOne_left ≤
      firstFullFrame 8 0 (1 / 2) (wordPositionRatioOf 3 1) reachesOne_mid :=
  firstFullFrame_monotone 8 (1 / 2) (wordPositionRatioOf 3 0)
    (wordPositionRatioOf 3 1) 0 (by norm_num [wordPositionRatioOf])
    reachesOne_left reachesOne_mid

/-- C8 counterexample. In the §8 scenario at frame 30 the light position is
`2147/1390 ≈ 1.545`, which is NOT near `0.95`, and the word "change"
(ratio 5/6) has distance below `-LIGHT_WIDTH` — it is in the fully-reached
band, not in the interpolation band with distance `≈ 0.117`. -/
theorem concrete_scenario_light_not_near :
    lightPositionOf 30 30 (processGroup 30 greatIdeasChange).startFrame
        (processGroup 30 greatIdeasChange).lineEnd = 2147 / 1390 ∧
      ¬ |lightPositionOf 30 30 (processGroup 30 greatIdeasChange).startFrame
          (processGroup 30 greatIdeasChange).lineEnd - 19 / 20| ≤ 1 / 10 ∧
      wordPositionRatioOf 3 2 -
          lightPositionOf 30 30 (processGroup 30 greatIdeasChange).startFrame
            (processGroup 30 greatIdeasChange).lineEnd < -LIGHT_WIDTH := by
  have hlight : lightPositionOf 30 30 (processGroup 30 greatIdeasChange).startFrame
      (processGroup 30 greatIdeasChange).lineEnd = 2147 / 1390 := by
    norm_num [lightPositionOf, timeProgressOf, lineStartTimeOf, interp,
      processGroup, greatIdeasChange, List.headI, List.getLastI, LIGHT_WIDTH,
      min_def, max_def]
  refine ⟨hlight, ?_, ?_⟩
  · rw [hlight]
    norm_num [abs_le]
  · rw [hlight]
    norm_num [wordPositionRatioOf, LIGHT_WIDTH]

/-- C8 amended. The §8 scenario with the values the code produces:
`startFrame = 4`, `endFrame = 31`, effects enabled; at frame 4 the word
"Great" (ratio 1/6) has opacity `0.35`; at frame 30 the light position is
`2147/1390 ≈ 1.545`, the word "change" (ratio 5/6) has distance
`< -LIGHT_WIDTH`, and its opacity is exactly `1.0` via the reached band. -/
theorem concrete_scenario_values :
    (processGroup 30 greatIdeasChange).startFrame = 4 ∧
      (processGroup 30 greatIdeasChange).endFrame = 31 ∧
      (processGroup 30 greatIdeasChange).enableEffects = true ∧
      wordOpacity 30 4 4 (53 / 50) true (wordPositionRatioOf 3 0) =
        UNREACHED_OPACITY ∧
      lightPositionOf 30 30 4 (53 / 50) = 2147 / 1390 ∧
      wordPositionRatioOf 3 2 - lightPositionOf 30 30 4 (53 / 50) <
        -LIGHT_WIDTH ∧
      wordOpacity 30 30 4 (53 / 50) true (wordPositionRatioOf 3 2) =
        REACHED_OPACITY := by
  refine ⟨?_, ?_, ?_, ?_, ?_, ?_, ?_⟩ <;>
    norm_num [processGroup, greatIdeasChange, List.headI, List.getLastI,
      MIN_WORD_DURATION_FOR_KARAOKE_MS, wordOpacity, karaokeOpacity,
      lightPositionOf, timeProgressOf, lineStartTimeOf, interp,
      wordPositionRatioOf, LIGHT_WIDTH, REACHED_OPACITY, ACTIVE_OPACITY,
      UNREACHED_OPACITY, abs_le, min_def, max_def]

/-- The pairwise boolean check agrees with `List.Chain'` strict order. -/
theorem strictlyIncreasing_iff_chain (l : List ℕ) :
    strictlyIncreasing l = true ↔ l.Chain' (· < ·) := by
  induction l with
  | nil => simp [strictlyIncreasing]
  | cons a t ih =>
    cases t with
    | nil => simp [strictlyIncreasing]
    | cons b t2 =>
      rw [strictlyIncreasing, List.chain'_cons, Bool.and_eq_true,
        decide_eq_true_eq, ih]

/-- C9. The resolver fails with `InvalidGrouping` — returning an error and
therefore constructing no partial track — whenever some group is empty,
contains an out-of-range index, or has indices that are not strictly
increasing. -/
theorem resolve_invalid_grouping (words : List Word) (grouping : GroupingFile)
    (h : ∃ g ∈ grouping.groups,
      g.indices = [] ∨ (∃ i ∈ g.indices, words.length ≤ i) ∨
        ¬ g.indices.Chain' (· < ·)) :
    resolve words grouping = Except.error CaptionError.InvalidGrouping := by
  obtain ⟨g, hg, hbad⟩ := h
  unfold resolve
  rw [if_neg]
  intro hall
  rw [List.all_eq_true] at hall
  have hv := hall g hg
  unfold validGroupEntry at hv
  rw [Bool.and_eq_true, Bool.and_eq_true] at hv
  obtain ⟨⟨hne, hinc⟩, hrange⟩ := hv
  rcases hbad with h0 | ⟨i, hi, hlen⟩ | hchain
  · rw [h0] at hne
    simp at hne
  · rw [List.all_eq_true] at hrange
    have := hrange i hi
    rw [decide_eq_true_eq] at this
    omega
  · exact hchain ((strictlyIncreasing_iff_chain g.indices).mp hinc)

/-- Witness for C9: a grouping containing index 99 against a 3-word list
fails with `InvalidGrouping`. -/
theorem resolve_rejects_out_of_range_index :
    resolve [⟨"a", 0, 1⟩, ⟨"b", 1, 2⟩, ⟨"c", 2, 3⟩] ⟨[⟨[0, 99], "x"⟩]⟩ =
      Except.error CaptionError.InvalidGrouping :=
  resolve_invalid_grouping _ _
    ⟨⟨[0, 99], "x"⟩, by simp, Or.inr (Or.inl ⟨99, by simp, by norm_num⟩)⟩

end Captions
